import Mathlib

/-!
Shallow embedding of `asmdec.py` (class `AsmDec`), a width-truncating
arithmetic engine mimicking x86/x64 register sizes.

Python integers are arbitrary precision, so operand values are embedded as
`Int`.  Python's bitwise operators on negative integers follow the infinite
two's-complement convention, which is exactly `Int.land` / `Int.lor` /
`Int.xor` / `Int.lnot`, and Python's `<<` / `>>` are arithmetic shifts,
which for nonnegative shift counts agree with `Int`'s `<<<` / `>>>`.
Python `//` and `%` (and hence `>>`) floor toward negative infinity; for the
positive divisors appearing here this agrees with `Int.ediv` / `Int.emod`.

Fallible code is embedded in `Option`: a Python expression that raises
(`TypeError` from arithmetic on `None`, `IndexError` from indexing a short
width specifier, `ValueError` from a negative shift count) is modelled as
`none`.
-/

namespace AsmDec

/-- Embedding of `AsmDec._get_size`: return `value` truncated according to the
register-size tag.  The sequence of `if size == ...: return ...` statements in
the source is an if-else chain; falling off the end of the Python function
(unrecognized tag) returns `None`, embedded as `none`.  The Python-2-only
branch converting a `str` argument via `value.encode("hex")` is outside this
embedding, which covers integer inputs.  Python `value & mask` is
`Int.land value mask` and `>> 8` is `>>> (8 : Int)`. -/
def _get_size (value : Int) (size : Char) : Option Int :=
  if size = 'l' then some (Int.land value 0xFF)
  else if size = 'h' then some (Int.land value 0xFF00 >>> (8 : Int))
  else if size = 'w' then some (Int.land value 0xFFFF)
  else if size = 'd' then some (Int.land value 0xFFFFFFFF)
  else if size = 'q' then some (Int.land value 0xFFFFFFFFFFFFFFFF)
  else none

/-- Embedding of `AsmDec._parse1`: resize the single operand using the first
character of the width specifier.  `size[0]` raises `IndexError` on an empty
specifier, modelled by `size[0]?`. -/
def _parse1 (op1 : Int) (size : List Char) : Option Int := do
  let size_op1 ← size[0]?
  _get_size op1 size_op1

/-- Embedding of `AsmDec._parse2`: resize both operands, each using its own
character of the width specifier.  In Python a `None` produced by an
unrecognized tag flows into the caller's arithmetic and raises `TypeError`
there; observably the call fails either way, so the failure is propagated
here. -/
def _parse2 (op1 op2 : Int) (size : List Char) : Option (Int × Int) := do
  let size_op1 ← size[0]?
  let size_op2 ← size[1]?
  let temp_op1 ← _get_size op1 size_op1
  let temp_op2 ← _get_size op2 size_op2
  return (temp_op1, temp_op2)

/-- Embedding of `AsmDec.FORMAT`: format (truncate) a single integer value.
Unlike the operations, this returns `_get_size`'s result directly, so an
unrecognized tag yields Python `None` without raising. -/
def FORMAT (op1 : Int) (size : List Char) : Option Int := do
  let size_op1 ← size[0]?
  _get_size op1 size_op1

/-- Embedding of `AsmDec.HIGHBYTE`: `value << 8`, with no masking or range
check. -/
def HIGHBYTE (value : Int) : Int := value <<< (8 : Int)

/-- Python `<<`: raises `ValueError` on a negative shift count (modelled as
`none`), otherwise an arithmetic left shift. -/
def pyShl (v n : Int) : Option Int :=
  if n < 0 then none else some (v <<< n)

/-- Python `>>`: raises `ValueError` on a negative shift count (modelled as
`none`), otherwise an arithmetic (sign-preserving) right shift. -/
def pyShr (v n : Int) : Option Int :=
  if n < 0 then none else some (v >>> n)

/-- Embedding of `AsmDec.XOR`: bitwise XOR. -/
def XOR (op1 op2 : Int) (size : List Char) : Option Int := do
  let (op1, op2) ← _parse2 op1 op2 size
  let size0 ← size[0]?
  _get_size (Int.xor op1 op2) size0

/-- Embedding of `AsmDec.OR`: bitwise OR. -/
def OR (op1 op2 : Int) (size : List Char) : Option Int := do
  let (op1, op2) ← _parse2 op1 op2 size
  let size0 ← size[0]?
  _get_size (Int.lor op1 op2) size0

/-- Embedding of `AsmDec.AND`: bitwise AND. -/
def AND (op1 op2 : Int) (size : List Char) : Option Int := do
  let (op1, op2) ← _parse2 op1 op2 size
  let size0 ← size[0]?
  _get_size (Int.land op1 op2) size0

/-- Embedding of `AsmDec.ROL`: bitwise rotate left within an 8-bit window.
Python evaluates `op1 << op2` and then `op1 >> (8 - op2)`; the second shift
raises `ValueError` whenever the resolved `op2` exceeds 8. -/
def ROL (op1 op2 : Int) (size : List Char) : Option Int := do
  let (op1, op2) ← _parse2 op1 op2 size
  let shl ← pyShl op1 op2
  let shr ← pyShr op1 (8 - op2)
  let temp := Int.land (Int.lor shl shr) 0xFF
  let size0 ← size[0]?
  _get_size temp size0

/-- Embedding of `AsmDec.ROR`: bitwise rotate right within an 8-bit window.
Mirror shift directions of `ROL`, with the same `ValueError` when the
resolved `op2` exceeds 8. -/
def ROR (op1 op2 : Int) (size : List Char) : Option Int := do
  let (op1, op2) ← _parse2 op1 op2 size
  let shr ← pyShr op1 op2
  let shl ← pyShl op1 (8 - op2)
  let temp := Int.land (Int.lor shr shl) 0xFF
  let size0 ← size[0]?
  _get_size temp size0

/-- Embedding of `AsmDec.SHR`: shift operand right. -/
def SHR (op1 op2 : Int) (size : List Char) : Option Int := do
  let (op1, op2) ← _parse2 op1 op2 size
  let temp ← pyShr op1 op2
  let size0 ← size[0]?
  _get_size temp size0

/-- Embedding of `AsmDec.SHL`: shift operand left. -/
def SHL (op1 op2 : Int) (size : List Char) : Option Int := do
  let (op1, op2) ← _parse2 op1 op2 size
  let temp ← pyShl op1 op2
  let size0 ← size[0]?
  _get_size temp size0

/-- Embedding of `AsmDec.INC`: increment operand. -/
def INC (op1 : Int) (size : List Char) : Option Int := do
  let op1 ← _parse1 op1 size
  let size0 ← size[0]?
  _get_size (op1 + 1) size0

/-- Embedding of `AsmDec.DEC`: decrement operand. -/
def DEC (op1 : Int) (size : List Char) : Option Int := do
  let op1 ← _parse1 op1 size
  let size0 ← size[0]?
  _get_size (op1 - 1) size0

/-- Embedding of `AsmDec.NEG`: two's-complement negate, `~op1 + 1`.
Python `~` is `Int.lnot`. -/
def NEG (op1 : Int) (size : List Char) : Option Int := do
  let op1 ← _parse1 op1 size
  let size0 ← size[0]?
  _get_size (Int.lnot op1 + 1) size0

/-- Embedding of `AsmDec.NOT`: bitwise not, `~op1`. -/
def NOT (op1 : Int) (size : List Char) : Option Int := do
  let op1 ← _parse1 op1 size
  let size0 ← size[0]?
  _get_size (Int.lnot op1) size0

/-- Embedding of `AsmDec.ADD`: add operands. -/
def ADD (op1 op2 : Int) (size : List Char) : Option Int := do
  let (op1, op2) ← _parse2 op1 op2 size
  let size0 ← size[0]?
  _get_size (op1 + op2) size0

/-- Embedding of `AsmDec.SUB`: subtract operands. -/
def SUB (op1 op2 : Int) (size : List Char) : Option Int := do
  let (op1, op2) ← _parse2 op1 op2 size
  let size0 ← size[0]?
  _get_size (op1 - op2) size0

/-- The five width tags the resolver recognizes. -/
def recognizedTags : List Char := ['l', 'h', 'w', 'd', 'q']

/-- Exclusive upper bound on a register of the width declared by a tag:
`2^8` for the byte tags `l` and `h`, `2^16` for `w`, `2^32` for `d`,
`2^64` for `q` (0 for an unrecognized tag). -/
def tagBound (t : Char) : Int :=
  if t = 'l' then 2 ^ 8
  else if t = 'h' then 2 ^ 8
  else if t = 'w' then 2 ^ 16
  else if t = 'd' then 2 ^ 32
  else if t = 'q' then 2 ^ 64
  else 0

/-! Bridge lemmas: Python's two's-complement masking expressed through
Euclidean division and remainder. -/

theorem land_ofNat_ofNat (m n : ℕ) : Int.land ↑m ↑n = ↑(m &&& n) := rfl

theorem land_negSucc_ofNat (m n : ℕ) :
    Int.land (Int.negSucc m) ↑n = ↑(Nat.ldiff n m) := rfl

theorem ldiff_two_pow_sub_one_of_lt (k : ℕ) :
    ∀ m : ℕ, m < 2 ^ k → Nat.ldiff (2 ^ k - 1) m = 2 ^ k - 1 - m := by
  induction k with
  | zero =>
    intro m hm
    have hm0 : m = 0 := by omega
    subst hm0
    apply Nat.eq_of_testBit_eq
    intro i
    simp [Nat.testBit_ldiff]
  | succ k ih =>
    intro m hm
    obtain ⟨b, q, rfl⟩ : ∃ b q, Nat.bit b q = m :=
      ⟨_, _, Nat.bit_decide_mod_two_eq_one_shiftRight_one m⟩
    have h1 : (1 : ℕ) ≤ 2 ^ k := Nat.one_le_two_pow
    have hbit : (2 : ℕ) ^ (k + 1) - 1 = Nat.bit true (2 ^ k - 1) := by
      simp only [Nat.bit_val, Bool.toNat_true, pow_succ]
      omega
    have hq : q < 2 ^ k := by
      have := hm
      rw [Nat.bit_val, pow_succ] at this
      cases b <;> simp at this <;> omega
    rw [hbit, Nat.ldiff_bit, ih q hq]
    cases b <;> simp [Nat.bit_val] <;> omega

theorem ldiff_two_pow_sub_one (k m : ℕ) :
    Nat.ldiff (2 ^ k - 1) m = 2 ^ k - 1 - m % 2 ^ k := by
  have h1 : Nat.ldiff (2 ^ k - 1) m = Nat.ldiff (2 ^ k - 1) (m % 2 ^ k) := by
    apply Nat.eq_of_testBit_eq
    intro i
    by_cases hik : i < k <;>
      simp [Nat.testBit_ldiff, Nat.testBit_mod_two_pow, hik]
  rw [h1, ldiff_two_pow_sub_one_of_lt k _ (Nat.mod_lt m (Nat.two_pow_pos k))]

theorem negSucc_ediv_emod (m M : ℕ) (hM : 0 < M) :
    Int.negSucc m / (M : ℤ) = -(↑(m / M) + 1) ∧
      Int.negSucc m % (M : ℤ) = ((M - 1 - m % M : ℕ) : ℤ) := by
  have hb : (0 : ℤ) < (M : ℤ) := by exact_mod_cast hM
  have hlt : m % M < M := Nat.mod_lt m hM
  apply (Int.ediv_emod_unique hb).mpr
  refine ⟨?_, by omega, by omega⟩
  rw [Int.negSucc_eq]
  have h2 : ((M - 1 - m % M : ℕ) : ℤ) = (M : ℤ) - 1 - ((m % M : ℕ) : ℤ) := by
    omega
  have h3 : ((M : ℕ) : ℤ) * ((m / M : ℕ) : ℤ) + ((m % M : ℕ) : ℤ) = (m : ℤ) := by
    exact_mod_cast Nat.div_add_mod m M
  rw [h2]
  nlinarith [h3]

theorem negSucc_ediv_emod_two_pow (m k : ℕ) :
    Int.negSucc m / ((2 : ℤ) ^ k) = -(↑(m / 2 ^ k) + 1) ∧
      Int.negSucc m % ((2 : ℤ) ^ k) = ((2 ^ k - 1 - m % 2 ^ k : ℕ) : ℤ) := by
  have h := negSucc_ediv_emod m (2 ^ k) (Nat.two_pow_pos k)
  have hp : ((2 ^ k : ℕ) : ℤ) = (2 : ℤ) ^ k := by push_cast; ring
  rw [hp] at h
  exact h

theorem int_land_two_pow_sub_one (v : ℤ) (k : ℕ) :
    Int.land v ((2 : ℤ) ^ k - 1) = v % ((2 : ℤ) ^ k) := by
  have h1 : (1 : ℕ) ≤ 2 ^ k := Nat.one_le_two_pow
  have hcast : ((2 : ℤ) ^ k - 1) = ((2 ^ k - 1 : ℕ) : ℤ) := by
    push_cast [h1]
    ring
  cases v with
  | ofNat m =>
    rw [Int.ofNat_eq_coe, hcast, land_ofNat_ofNat, Nat.and_pow_two_sub_one_eq_mod]
    push_cast
    ring
  | negSucc m =>
    rw [hcast, land_negSucc_ofNat, ldiff_two_pow_sub_one,
      (negSucc_ediv_emod_two_pow m k).2]

theorem int_shiftRight_eq_ediv (v : ℤ) (k : ℕ) :
    v >>> ((k : ℕ) : ℤ) = v / (2 : ℤ) ^ k := by
  cases v with
  | ofNat m =>
    rw [Int.ofNat_eq_coe, Int.shiftRight_coe_nat, Nat.shiftRight_eq_div_pow]
    push_cast
    rfl
  | negSucc m =>
    rw [Int.shiftRight_negSucc, (negSucc_ediv_emod_two_pow m k).1,
      Nat.shiftRight_eq_div_pow, Int.negSucc_eq]

theorem nat_and_hi_mask (m : ℕ) : m &&& 0xFF00 = 2 ^ 8 * (m / 2 ^ 8 % 2 ^ 8) := by
  have hmask : (0xFF00 : ℕ) = (2 ^ 8 - 1) <<< 8 := by decide
  have hr : 2 ^ 8 * (m / 2 ^ 8 % 2 ^ 8) = (m >>> 8 % 2 ^ 8) <<< 8 := by
    rw [Nat.shiftLeft_eq, Nat.shiftRight_eq_div_pow]
    ring
  rw [hmask, hr]
  apply Nat.eq_of_testBit_eq
  intro i
  simp only [Nat.testBit_and, Nat.testBit_shiftLeft, Nat.testBit_mod_two_pow,
    Nat.testBit_shiftRight, Nat.testBit_two_pow_sub_one, ge_iff_le]
  by_cases h8 : 8 ≤ i
  · have hi : 8 + (i - 8) = i := by omega
    rw [hi]
    cases hm : m.testBit i <;> simp [h8]
  · simp [h8]

theorem nat_ldiff_hi_mask (m : ℕ) :
    Nat.ldiff 0xFF00 m = 2 ^ 8 * (2 ^ 8 - 1 - m / 2 ^ 8 % 2 ^ 8) := by
  have hmask : (0xFF00 : ℕ) = (2 ^ 8 - 1) <<< 8 := by decide
  have hr : 2 ^ 8 * (2 ^ 8 - 1 - m / 2 ^ 8 % 2 ^ 8) = (Nat.ldiff (2 ^ 8 - 1) (m >>> 8)) <<< 8 := by
    rw [ldiff_two_pow_sub_one, Nat.shiftLeft_eq, Nat.shiftRight_eq_div_pow]
    ring
  rw [hmask, hr]
  apply Nat.eq_of_testBit_eq
  intro i
  simp only [Nat.testBit_ldiff, Nat.testBit_shiftLeft, Nat.testBit_mod_two_pow,
    Nat.testBit_shiftRight, Nat.testBit_two_pow_sub_one, ge_iff_le]
  by_cases h8 : 8 ≤ i
  · have hi : 8 + (i - 8) = i := by omega
    rw [hi]
    cases hm : m.testBit i <;> simp [h8]
  · simp [h8]

theorem int_land_hi_mask (v : ℤ) : Int.land v 0xFF00 = 2 ^ 8 * (v / 2 ^ 8 % 2 ^ 8) := by
  have hm : (0xFF00 : ℤ) = ((0xFF00 : ℕ) : ℤ) := by norm_num
  cases v with
  | ofNat m =>
    rw [Int.ofNat_eq_coe, hm, land_ofNat_ofNat, nat_and_hi_mask]
    push_cast
    rfl
  | negSucc m =>
    rw [hm, land_negSucc_ofNat, nat_ldiff_hi_mask]
    have hdiv : Int.negSucc m / (2 : ℤ) ^ 8 = Int.negSucc (m / 2 ^ 8) := by
      rw [(negSucc_ediv_emod_two_pow m 8).1, Int.negSucc_eq]
    rw [hdiv, (negSucc_ediv_emod_two_pow (m / 2 ^ 8) 8).2]
    push_cast
    ring

/-! Characterization of the width resolver on each tag. -/

theorem _get_size_l (v : ℤ) : _get_size v 'l' = some (v % 2 ^ 8) := by
  have h := int_land_two_pow_sub_one v 8
  norm_num at h
  simp [_get_size, h]

theorem _get_size_w (v : ℤ) : _get_size v 'w' = some (v % 2 ^ 16) := by
  have h := int_land_two_pow_sub_one v 16
  norm_num at h
  simp [_get_size, h]

theorem _get_size_d (v : ℤ) : _get_size v 'd' = some (v % 2 ^ 32) := by
  have h := int_land_two_pow_sub_one v 32
  norm_num at h
  simp [_get_size, h]

theorem _get_size_q (v : ℤ) : _get_size v 'q' = some (v % 2 ^ 64) := by
  have h := int_land_two_pow_sub_one v 64
  norm_num at h
  simp [_get_size, h]

theorem _get_size_h (v : ℤ) : _get_size v 'h' = some (v / 2 ^ 8 % 2 ^ 8) := by
  have h := int_land_hi_mask v
  have hs := int_shiftRight_eq_ediv (2 ^ 8 * (v / 2 ^ 8 % 2 ^ 8)) 8
  rw [Int.mul_ediv_cancel_left _ (by norm_num : (2 : ℤ) ^ 8 ≠ 0)] at hs
  simp only [Nat.cast_ofNat] at hs
  norm_num at h hs
  simp [_get_size, h, hs]

theorem _get_size_unrecognized {t : Char} (h : t ∉ recognizedTags) (v : ℤ) :
    _get_size v t = none := by
  simp [recognizedTags] at h
  obtain ⟨h1, h2, h3, h4, h5⟩ := h
  simp [_get_size, h1, h2, h3, h4, h5]

theorem _get_size_bound {t : Char} (h : t ∈ recognizedTags) (v : ℤ) :
    ∃ r, _get_size v t = some r ∧ 0 ≤ r ∧ r < tagBound t := by
  simp [recognizedTags] at h
  rcases h with rfl | rfl | rfl | rfl | rfl
  · exact ⟨v % 2 ^ 8, _get_size_l v, Int.emod_nonneg _ (by norm_num),
      by simpa [tagBound] using Int.emod_lt_of_pos v (show (0 : ℤ) < 2 ^ 8 by norm_num)⟩
  · exact ⟨v / 2 ^ 8 % 2 ^ 8, _get_size_h v, Int.emod_nonneg _ (by norm_num),
      by simpa [tagBound] using
        Int.emod_lt_of_pos (v / 2 ^ 8) (show (0 : ℤ) < 2 ^ 8 by norm_num)⟩
  · exact ⟨v % 2 ^ 16, _get_size_w v, Int.emod_nonneg _ (by norm_num),
      by simpa [tagBound] using Int.emod_lt_of_pos v (show (0 : ℤ) < 2 ^ 16 by norm_num)⟩
  · exact ⟨v % 2 ^ 32, _get_size_d v, Int.emod_nonneg _ (by norm_num),
      by simpa [tagBound] using Int.emod_lt_of_pos v (show (0 : ℤ) < 2 ^ 32 by norm_num)⟩
  · exact ⟨v % 2 ^ 64, _get_size_q v, Int.emod_nonneg _ (by norm_num),
      by simpa [tagBound] using Int.emod_lt_of_pos v (show (0 : ℤ) < 2 ^ 64 by norm_num)⟩

theorem _get_size_nonneg {t : Char} {v r : ℤ} (h : _get_size v t = some r) : 0 ≤ r := by
  by_cases ht : t ∈ recognizedTags
  · obtain ⟨r2, hr2, hnn, _⟩ := _get_size_bound ht v
    rw [h] at hr2
    injection hr2 with hr2
    exact hr2 ▸ hnn
  · rw [_get_size_unrecognized ht] at h
    cases h

/-! Claim theorems. -/

/-- Claim C1: for every non-negative integer `v`, the width resolver
(`_get_size`, exposed unchanged through `FORMAT`) returns `v & 0xFF` for tag
`l`, `(v & 0xFF00) >> 8` for tag `h`, `v & 0xFFFF` for `w`, `v & 0xFFFFFFFF`
for `d`, and `v & 0xFFFFFFFFFFFFFFFF` for `q`. -/
theorem claim_C1 (v : ℕ) :
    _get_size ↑v 'l' = some ↑(v &&& 0xFF) ∧
    _get_size ↑v 'h' = some ↑((v &&& 0xFF00) >>> 8) ∧
    _get_size ↑v 'w' = some ↑(v &&& 0xFFFF) ∧
    _get_size ↑v 'd' = some ↑(v &&& 0xFFFFFFFF) ∧
    _get_size ↑v 'q' = some ↑(v &&& 0xFFFFFFFFFFFFFFFF) ∧
    ∀ t : Char, FORMAT ↑v [t] = _get_size ↑v t := by
  refine ⟨?_, ?_, ?_, ?_, ?_, fun t => by simp [FORMAT]⟩
  · rw [_get_size_l, show (0xFF : ℕ) = 2 ^ 8 - 1 by norm_num,
      Nat.and_pow_two_sub_one_eq_mod]
    congr 1
  · rw [_get_size_h]
    congr 1
    rw [nat_and_hi_mask, Nat.shiftRight_eq_div_pow,
      Nat.mul_div_cancel_left _ (Nat.two_pow_pos 8)]
    push_cast
    ring
  · rw [_get_size_w, show (0xFFFF : ℕ) = 2 ^ 16 - 1 by norm_num,
      Nat.and_pow_two_sub_one_eq_mod]
    congr 1
  · rw [_get_size_d, show (0xFFFFFFFF : ℕ) = 2 ^ 32 - 1 by norm_num,
      Nat.and_pow_two_sub_one_eq_mod]
    congr 1
  · rw [_get_size_q, show (0xFFFFFFFFFFFFFFFF : ℕ) = 2 ^ 64 - 1 by norm_num,
      Nat.and_pow_two_sub_one_eq_mod]
    congr 1

/-- Claim C4 counterexample: at `v = 1` and tag `h` the resolver returns `0`,
not `1 % 2^8 = 1`, so `resolve(v, w) = v mod 2^bits(w)` fails for `h`. -/
theorem claim_C4_counterexample :
    _get_size 1 'h' = some 0 ∧ (1 : ℤ) % 2 ^ 8 = 1 ∧
      _get_size 1 'h' ≠ some ((1 : ℤ) % 2 ^ 8) := by
  refine ⟨by decide, by decide, by decide⟩

/-- Claim C4 (amended): for every integer `v`, `resolve(v, w) = v mod 2^bits(w)`
holds for the tags `l` (bits 8), `w` (16), `d` (32) and `q` (64); for tag `h`
the resolver instead returns the shifted view of bits 8 to 15, namely
`(v / 2^8) mod 2^8`. -/
theorem claim_C4_amended (v : ℤ) :
    _get_size v 'l' = some (v % 2 ^ 8) ∧
    _get_size v 'h' = some (v / 2 ^ 8 % 2 ^ 8) ∧
    _get_size v 'w' = some (v % 2 ^ 16) ∧
    _get_size v 'd' = some (v % 2 ^ 32) ∧
    _get_size v 'q' = some (v % 2 ^ 64) :=
  ⟨_get_size_l v, _get_size_h v, _get_size_w v, _get_size_d v, _get_size_q v⟩

/-- Claim C5 counterexample: resolution is not idempotent for tag `h`:
resolving `256` gives `1`, but resolving the result again gives `0`. -/
theorem claim_C5_counterexample :
    _get_size 256 'h' = some 1 ∧
      (_get_size 256 'h').bind (fun r => _get_size r 'h') = some 0 ∧
      (_get_size 256 'h').bind (fun r => _get_size r 'h') ≠ _get_size 256 'h' := by
  refine ⟨by decide, by decide, by decide⟩

/-- Claim C5 (amended): resolution is idempotent for the four mask tags `l`,
`w`, `d`, `q` — for every integer `v` (in particular every non-negative one),
re-resolving the resolved value is a no-op.  For tag `h` idempotence fails:
re-resolving always yields `0`, because the resolved high byte lives in bits
0 to 7 while `h` extracts bits 8 to 15. -/
theorem claim_C5_amended (v : ℤ) :
    (_get_size v 'l').bind (fun r => _get_size r 'l') = _get_size v 'l' ∧
    (_get_size v 'w').bind (fun r => _get_size r 'w') = _get_size v 'w' ∧
    (_get_size v 'd').bind (fun r => _get_size r 'd') = _get_size v 'd' ∧
    (_get_size v 'q').bind (fun r => _get_size r 'q') = _get_size v 'q' ∧
    (_get_size v 'h').bind (fun r => _get_size r 'h') = some 0 := by
  refine ⟨?_, ?_, ?_, ?_, ?_⟩
  · simp [_get_size_l, Int.emod_emod_of_dvd]
  · simp [_get_size_w, Int.emod_emod_of_dvd]
  · simp [_get_size_d, Int.emod_emod_of_dvd]
  · simp [_get_size_q, Int.emod_emod_of_dvd]
  · have h1 : (0 : ℤ) ≤ v / 2 ^ 8 % 2 ^ 8 := Int.emod_nonneg _ (by norm_num)
    have h2 : v / 2 ^ 8 % 2 ^ 8 < 2 ^ 8 := Int.emod_lt_of_pos _ (by norm_num)
    rw [_get_size_h]
    show _get_size (v / 2 ^ 8 % 2 ^ 8) 'h' = some 0
    rw [_get_size_h, Int.ediv_eq_zero_of_lt h1 h2]
    norm_num

/-- Claim C6: high-byte round trip — for every byte `b` with `0 ≤ b ≤ 255`,
resolving `HIGHBYTE b` with tag `h` yields `b` back. -/
theorem claim_C6 (b : ℕ) (hb : b ≤ 255) :
    _get_size (HIGHBYTE ↑b) 'h' = some ↑b := by
  rw [_get_size_h, HIGHBYTE]
  rw [show (8 : ℤ) = ((8 : ℕ) : ℤ) by norm_num, Int.shiftLeft_eq_mul_pow]
  rw [show ((2 ^ 8 : ℕ) : ℤ) = (2 : ℤ) ^ 8 by norm_num]
  rw [Int.mul_ediv_cancel _ (by norm_num : (2 : ℤ) ^ 8 ≠ 0)]
  have hlt : ((b : ℕ) : ℤ) < 2 ^ 8 := by
    have hb2 : b < 2 ^ 8 := Nat.lt_of_le_of_lt hb (by norm_num)
    exact_mod_cast hb2
  rw [Int.emod_eq_of_lt (by positivity) hlt]

/-- Claim C6 witness: the round trip at the documented example byte `0x22`. -/
theorem claim_C6_witness :
    _get_size (HIGHBYTE ((0x22 : ℕ) : ℤ)) 'h' = some ((0x22 : ℕ) : ℤ) :=
  claim_C6 0x22 (by norm_num)

theorem pyShr_resolved {t : Char} {b n : ℤ} (h : _get_size b t = some n) (v : ℤ) :
    pyShr v n = some (v >>> n) := by
  have hn := (_get_size_nonneg h).not_lt
  simp [pyShr, hn]

theorem pyShl_resolved {t : Char} {b n : ℤ} (h : _get_size b t = some n) (v : ℤ) :
    pyShl v n = some (v <<< n) := by
  have hn := (_get_size_nonneg h).not_lt
  simp [pyShl, hn]

/-- Claim C2: each binary operation (XOR, OR, AND, ADD, SUB, SHR, SHL) equals
the three-step protocol: resolve operand 1 with the first tag and operand 2
with the second tag independently, apply the raw mathematical operator, then
truncate the result using the first tag alone.  Proved for all tag pairs, in
particular for every pair of recognized tags. -/
theorem claim_C2 (a b : ℤ) (t1 t2 : Char) :
    XOR a b [t1, t2] = ((_get_size a t1).bind fun n1 =>
      (_get_size b t2).bind fun n2 => _get_size (Int.xor n1 n2) t1) ∧
    OR a b [t1, t2] = ((_get_size a t1).bind fun n1 =>
      (_get_size b t2).bind fun n2 => _get_size (Int.lor n1 n2) t1) ∧
    AND a b [t1, t2] = ((_get_size a t1).bind fun n1 =>
      (_get_size b t2).bind fun n2 => _get_size (Int.land n1 n2) t1) ∧
    ADD a b [t1, t2] = ((_get_size a t1).bind fun n1 =>
      (_get_size b t2).bind fun n2 => _get_size (n1 + n2) t1) ∧
    SUB a b [t1, t2] = ((_get_size a t1).bind fun n1 =>
      (_get_size b t2).bind fun n2 => _get_size (n1 - n2) t1) ∧
    SHR a b [t1, t2] = ((_get_size a t1).bind fun n1 =>
      (_get_size b t2).bind fun n2 => _get_size (n1 >>> n2) t1) ∧
    SHL a b [t1, t2] = ((_get_size a t1).bind fun n1 =>
      (_get_size b t2).bind fun n2 => _get_size (n1 <<< n2) t1) := by
  refine ⟨?_, ?_, ?_, ?_, ?_, ?_, ?_⟩
  · cases h1 : _get_size a t1 <;> cases h2 : _get_size b t2 <;>
      simp [XOR, _parse2, h1, h2]
  · cases h1 : _get_size a t1 <;> cases h2 : _get_size b t2 <;>
      simp [OR, _parse2, h1, h2]
  · cases h1 : _get_size a t1 <;> cases h2 : _get_size b t2 <;>
      simp [AND, _parse2, h1, h2]
  · cases h1 : _get_size a t1 <;> cases h2 : _get_size b t2 <;>
      simp [ADD, _parse2, h1, h2]
  · cases h1 : _get_size a t1 <;> cases h2 : _get_size b t2 <;>
      simp [SUB, _parse2, h1, h2]
  · cases h1 : _get_size a t1 with
    | none => cases h2 : _get_size b t2 <;> simp [SHR, _parse2, h1, h2]
    | some n1 =>
      cases h2 : _get_size b t2 with
      | none => simp [SHR, _parse2, h1, h2]
      | some n2 => simp [SHR, _parse2, h1, h2, pyShr_resolved h2]
  · cases h1 : _get_size a t1 with
    | none => cases h2 : _get_size b t2 <;> simp [SHL, _parse2, h1, h2]
    | some n1 =>
      cases h2 : _get_size b t2 with
      | none => simp [SHL, _parse2, h1, h2]
      | some n2 => simp [SHL, _parse2, h1, h2, pyShl_resolved h2]

/-- Claim C7 counterexample: for the high-byte tag the ADD/SUB inverse law
fails at `a = 256`, `b = 0`: `resolve(SUB(ADD(256,0,"hh"),0,"hh"),'h') = 0`
while `resolve(256,'h') = 1`. -/
theorem claim_C7_counterexample :
    ((ADD 256 0 ['h', 'h']).bind fun x =>
        (SUB x 0 ['h', 'h']).bind fun y => _get_size y 'h') = some 0 ∧
      _get_size 256 'h' = some 1 ∧
      ((ADD 256 0 ['h', 'h']).bind fun x =>
        (SUB x 0 ['h', 'h']).bind fun y => _get_size y 'h') ≠ _get_size 256 'h' := by
  refine ⟨by decide, by decide, by decide⟩

/-- Claim C7 (amended): SUB undoes ADD modulo the declared width for the four
mask tags `l`, `w`, `d`, `q` (all operand positions sharing the tag):
`resolve(SUB(ADD(a,b,ww),b,ww),w) = resolve(a,w)` for all integers `a`, `b`.
For the high-byte tag `h` the law fails (see the counterexample), because
ADD's result truncation extracts bits 8 to 15 of the sum. -/
theorem claim_C7_amended (a b : ℤ) :
    ((ADD a b ['l', 'l']).bind fun x =>
      (SUB x b ['l', 'l']).bind fun y => _get_size y 'l') = _get_size a 'l' ∧
    ((ADD a b ['w', 'w']).bind fun x =>
      (SUB x b ['w', 'w']).bind fun y => _get_size y 'w') = _get_size a 'w' ∧
    ((ADD a b ['d', 'd']).bind fun x =>
      (SUB x b ['d', 'd']).bind fun y => _get_size y 'd') = _get_size a 'd' ∧
    ((ADD a b ['q', 'q']).bind fun x =>
      (SUB x b ['q', 'q']).bind fun y => _get_size y 'q') = _get_size a 'q' := by
  refine ⟨?_, ?_, ?_, ?_⟩ <;>
    simp [ADD, SUB, _parse2, _get_size_l, _get_size_w, _get_size_d, _get_size_q] <;>
    omega

/-- Claim C3 counterexample: with the unrecognized tag `z` the operation XOR
does not return the unmasked arithmetic result `1 xor 2 = 3`; the resolver
returns Python `None` and the subsequent arithmetic fails (`TypeError`),
modelled as `none`. -/
theorem claim_C3_counterexample :
    XOR 1 2 ['z', 'z'] = none ∧ XOR 1 2 ['z', 'z'] ≠ some (Int.xor 1 2) := by
  refine ⟨by decide, by decide⟩

/-- Claim C3 (amended): when the width specifier contains a tag outside
`{l,h,w,d,q}`, the width resolver yields no integer (Python `None`), and
every operation consulting that tag fails (raises `TypeError` in Python)
instead of returning the unmasked arithmetic result; only the resolver-level
entry points (`_get_size`, `FORMAT`) return `None` without raising. -/
theorem claim_C3_amended {t : Char} (h : t ∉ recognizedTags) (a b : ℤ) :
    _get_size a t = none ∧
    FORMAT a [t, t] = none ∧
    XOR a b [t, t] = none ∧ OR a b [t, t] = none ∧ AND a b [t, t] = none ∧
    ROL a b [t, t] = none ∧ ROR a b [t, t] = none ∧
    SHR a b [t, t] = none ∧ SHL a b [t, t] = none ∧
    INC a [t, t] = none ∧ DEC a [t, t] = none ∧
    NEG a [t, t] = none ∧ NOT a [t, t] = none ∧
    ADD a b [t, t] = none ∧ SUB a b [t, t] = none ∧
    XOR a b ['d', t] = none ∧ ADD a b ['d', t] = none := by
  have hg : ∀ v : ℤ, _get_size v t = none := _get_size_unrecognized h
  refine ⟨hg a, ?_, ?_, ?_, ?_, ?_, ?_, ?_, ?_, ?_, ?_, ?_, ?_, ?_, ?_, ?_, ?_⟩ <;>
    simp [FORMAT, XOR, OR, AND, ROL, ROR, SHR, SHL, INC, DEC, NEG, NOT, ADD, SUB,
      _parse2, _parse1, hg, _get_size_d]

/-- Claim C3 witness: the amended statement instantiated at tag `z` with
operands `1` and `2`. -/
theorem claim_C3_witness :
    ('z' ∉ recognizedTags) ∧
    (_get_size 1 'z' = none ∧
      FORMAT 1 ['z', 'z'] = none ∧
      XOR 1 2 ['z', 'z'] = none ∧ OR 1 2 ['z', 'z'] = none ∧
      AND 1 2 ['z', 'z'] = none ∧
      ROL 1 2 ['z', 'z'] = none ∧ ROR 1 2 ['z', 'z'] = none ∧
      SHR 1 2 ['z', 'z'] = none ∧ SHL 1 2 ['z', 'z'] = none ∧
      INC 1 ['z', 'z'] = none ∧ DEC 1 ['z', 'z'] = none ∧
      NEG 1 ['z', 'z'] = none ∧ NOT 1 ['z', 'z'] = none ∧
      ADD 1 2 ['z', 'z'] = none ∧ SUB 1 2 ['z', 'z'] = none ∧
      XOR 1 2 ['d', 'z'] = none ∧ ADD 1 2 ['d', 'z'] = none) :=
  ⟨by decide, claim_C3_amended (by decide) 1 2⟩

/-- Claim C8: for any operands and tags, when the resolved rotate amount `n2`
lies between 0 and 8, ROL computes `((n1 << n2) | (n1 >> (8 - n2))) & 0xFF`
on the resolved operands and then truncates with the first tag, and ROR
mirrors the shift directions — an 8-bit rotation window regardless of the
declared width tag. -/
theorem claim_C8 (a b : ℤ) (t1 t2 : Char) (n2 : ℤ)
    (h2 : _get_size b t2 = some n2) (h0 : 0 ≤ n2) (h8 : n2 ≤ 8) :
    ROL a b [t1, t2] = ((_get_size a t1).bind fun n1 =>
      _get_size (Int.land (Int.lor (n1 <<< n2) (n1 >>> (8 - n2))) 0xFF) t1) ∧
    ROR a b [t1, t2] = ((_get_size a t1).bind fun n1 =>
      _get_size (Int.land (Int.lor (n1 >>> n2) (n1 <<< (8 - n2))) 0xFF) t1) := by
  have hs1 : ¬ n2 < 0 := h0.not_lt
  have hs2 : ¬ (8 - n2) < 0 := by omega
  have hs3 : ¬ 8 < n2 := by omega
  refine ⟨?_, ?_⟩ <;>
    cases h1 : _get_size a t1 <;>
      simp [ROL, ROR, _parse2, pyShl, pyShr, h1, h2, hs1, hs2, hs3]

/-- Claim C8 witness: the rotate formulas at `a = 0xAB`, `b = 3` with both
tags `l`. -/
theorem claim_C8_witness :
    _get_size 3 'l' = some 3 ∧ (0 : ℤ) ≤ 3 ∧ (3 : ℤ) ≤ 8 ∧
    (ROL 0xAB 3 ['l', 'l'] = ((_get_size 0xAB 'l').bind fun n1 =>
      _get_size (Int.land (Int.lor (n1 <<< (3 : ℤ)) (n1 >>> (8 - 3 : ℤ))) 0xFF) 'l') ∧
     ROR 0xAB 3 ['l', 'l'] = ((_get_size 0xAB 'l').bind fun n1 =>
      _get_size (Int.land (Int.lor (n1 >>> (3 : ℤ)) (n1 <<< (8 - 3 : ℤ))) 0xFF) 'l')) :=
  ⟨by decide, by decide, by decide,
    claim_C8 0xAB 3 'l' 'l' 3 (by decide) (by decide) (by decide)⟩

/-- Claim C10: `HIGHBYTE` applies no masking or range check — for every
non-negative integer `v` it returns `v << 8` — so for every `v ≥ 256` the
high-byte round trip fails: resolving `HIGHBYTE v` with tag `h` returns
`v & 0xFF`, which differs from `v`. -/
theorem claim_C10 (v : ℕ) :
    HIGHBYTE ↑v = ↑(v <<< 8) ∧
      (256 ≤ v →
        _get_size (HIGHBYTE ↑v) 'h' = some ↑(v &&& 0xFF) ∧
          (↑(v &&& 0xFF) : ℤ) ≠ ↑v) := by
  constructor
  · rw [HIGHBYTE, show (8 : ℤ) = ((8 : ℕ) : ℤ) by norm_num, Int.shiftLeft_coe_nat]
  · intro hv
    have hmul : HIGHBYTE (↑v : ℤ) = ↑v * 2 ^ 8 := by
      rw [HIGHBYTE, show (8 : ℤ) = ((8 : ℕ) : ℤ) by norm_num, Int.shiftLeft_eq_mul_pow]
      norm_num
    have hand : v &&& 0xFF = v % 2 ^ 8 := by
      rw [show (0xFF : ℕ) = 2 ^ 8 - 1 by norm_num, Nat.and_pow_two_sub_one_eq_mod]
    constructor
    · rw [hmul, _get_size_h, Int.mul_ediv_cancel _ (by norm_num : (2 : ℤ) ^ 8 ≠ 0), hand]
      congr 1
    · rw [hand]
      have hne : v % 2 ^ 8 ≠ v := by
        have : v % 2 ^ 8 < 2 ^ 8 := Nat.mod_lt v (Nat.two_pow_pos 8)
        omega
      exact_mod_cast hne

/-- Claim C10 witness: the failing round trip at `v = 0xABC`. -/
theorem claim_C10_witness :
    (256 ≤ 0xABC) ∧
      (_get_size (HIGHBYTE ((0xABC : ℕ) : ℤ)) 'h' = some ↑((0xABC : ℕ) &&& 0xFF) ∧
        (↑((0xABC : ℕ) &&& 0xFF) : ℤ) ≠ ↑(0xABC : ℕ)) :=
  ⟨by norm_num, (claim_C10 0xABC).2 (by norm_num)⟩

/-- Claim C9 counterexample: two inputs whose first width tag is recognized
yet the operation returns no integer at all — XOR with an unrecognized second
tag (`TypeError` in Python), and ROL with rotate amount 9 (`ValueError`). -/
theorem claim_C9_counterexample :
    XOR 1 2 ['d', 'z'] = none ∧ ROL 1 9 ['d', 'd'] = none := by
  refine ⟨by decide, by decide⟩

/-- Claim C9 (amended): range invariant — for every operation in the
catalogue, whenever every width tag the operation consults is recognized, the
returned result is a non-negative integer strictly below the bound declared
by the first tag: `2^8` for `l` and `h`, `2^16` for `w`, `2^32` for `d`,
`2^64` for `q` — including when intermediate arithmetic goes negative (DEC,
SUB, NEG, NOT).  The unary operations INC, DEC, NEG, NOT consult only the
first tag, so a recognized first tag suffices for them whatever the second
character is; the binary operations also need the second tag recognized, and
ROL/ROR additionally need the resolved rotate amount to be at most 8
(otherwise the operation raises and returns no integer, as in the
counterexample). -/
theorem claim_C9_amended (a b : ℤ) (t1 t2 : Char) (h1 : t1 ∈ recognizedTags) :
    (∃ r, INC a [t1, t2] = some r ∧ 0 ≤ r ∧ r < tagBound t1) ∧
    (∃ r, DEC a [t1, t2] = some r ∧ 0 ≤ r ∧ r < tagBound t1) ∧
    (∃ r, NEG a [t1, t2] = some r ∧ 0 ≤ r ∧ r < tagBound t1) ∧
    (∃ r, NOT a [t1, t2] = some r ∧ 0 ≤ r ∧ r < tagBound t1) ∧
    (t2 ∈ recognizedTags →
      (∃ r, XOR a b [t1, t2] = some r ∧ 0 ≤ r ∧ r < tagBound t1) ∧
      (∃ r, OR a b [t1, t2] = some r ∧ 0 ≤ r ∧ r < tagBound t1) ∧
      (∃ r, AND a b [t1, t2] = some r ∧ 0 ≤ r ∧ r < tagBound t1) ∧
      (∃ r, SHR a b [t1, t2] = some r ∧ 0 ≤ r ∧ r < tagBound t1) ∧
      (∃ r, SHL a b [t1, t2] = some r ∧ 0 ≤ r ∧ r < tagBound t1) ∧
      (∃ r, ADD a b [t1, t2] = some r ∧ 0 ≤ r ∧ r < tagBound t1) ∧
      (∃ r, SUB a b [t1, t2] = some r ∧ 0 ≤ r ∧ r < tagBound t1) ∧
      (∀ n2, _get_size b t2 = some n2 → n2 ≤ 8 →
        (∃ r, ROL a b [t1, t2] = some r ∧ 0 ≤ r ∧ r < tagBound t1) ∧
        (∃ r, ROR a b [t1, t2] = some r ∧ 0 ≤ r ∧ r < tagBound t1))) := by
  obtain ⟨n1, hn1, hn1l, hn1u⟩ := _get_size_bound h1 a
  refine ⟨?_, ?_, ?_, ?_, ?_⟩
  · obtain ⟨r, hr, h0r, hbr⟩ := _get_size_bound h1 (n1 + 1)
    exact ⟨r, by simp [INC, _parse1, hn1, hr], h0r, hbr⟩
  · obtain ⟨r, hr, h0r, hbr⟩ := _get_size_bound h1 (n1 - 1)
    exact ⟨r, by simp [DEC, _parse1, hn1, hr], h0r, hbr⟩
  · obtain ⟨r, hr, h0r, hbr⟩ := _get_size_bound h1 (Int.lnot n1 + 1)
    exact ⟨r, by simp [NEG, _parse1, hn1, hr], h0r, hbr⟩
  · obtain ⟨r, hr, h0r, hbr⟩ := _get_size_bound h1 (Int.lnot n1)
    exact ⟨r, by simp [NOT, _parse1, hn1, hr], h0r, hbr⟩
  · intro h2
    obtain ⟨n2, hn2, hn2l, hn2u⟩ := _get_size_bound h2 b
    refine ⟨?_, ?_, ?_, ?_, ?_, ?_, ?_, ?_⟩
    · obtain ⟨r, hr, h0r, hbr⟩ := _get_size_bound h1 (Int.xor n1 n2)
      exact ⟨r, by simp [XOR, _parse2, hn1, hn2, hr], h0r, hbr⟩
    · obtain ⟨r, hr, h0r, hbr⟩ := _get_size_bound h1 (Int.lor n1 n2)
      exact ⟨r, by simp [OR, _parse2, hn1, hn2, hr], h0r, hbr⟩
    · obtain ⟨r, hr, h0r, hbr⟩ := _get_size_bound h1 (Int.land n1 n2)
      exact ⟨r, by simp [AND, _parse2, hn1, hn2, hr], h0r, hbr⟩
    · obtain ⟨r, hr, h0r, hbr⟩ := _get_size_bound h1 (n1 >>> n2)
      exact ⟨r, by simp [SHR, _parse2, hn1, hn2, pyShr_resolved hn2, hr], h0r, hbr⟩
    · obtain ⟨r, hr, h0r, hbr⟩ := _get_size_bound h1 (n1 <<< n2)
      exact ⟨r, by simp [SHL, _parse2, hn1, hn2, pyShl_resolved hn2, hr], h0r, hbr⟩
    · obtain ⟨r, hr, h0r, hbr⟩ := _get_size_bound h1 (n1 + n2)
      exact ⟨r, by simp [ADD, _parse2, hn1, hn2, hr], h0r, hbr⟩
    · obtain ⟨r, hr, h0r, hbr⟩ := _get_size_bound h1 (n1 - n2)
      exact ⟨r, by simp [SUB, _parse2, hn1, hn2, hr], h0r, hbr⟩
    · intro m2 hm2 hm8
      rw [hn2] at hm2
      injection hm2 with hm2e
      subst hm2e
      have hc1 : ¬ n2 < 0 := hn2l.not_lt
      have hc2 : ¬ 8 - n2 < 0 := by omega
      have hc3 : ¬ 8 < n2 := by omega
      constructor
      · obtain ⟨r, hr, h0r, hbr⟩ :=
          _get_size_bound h1 (Int.land (Int.lor (n1 <<< n2) (n1 >>> (8 - n2))) 0xFF)
        exact ⟨r, by simp [ROL, _parse2, pyShl, pyShr, hn1, hn2, hc1, hc2, hc3, hr], h0r, hbr⟩
      · obtain ⟨r, hr, h0r, hbr⟩ :=
          _get_size_bound h1 (Int.land (Int.lor (n1 >>> n2) (n1 <<< (8 - n2))) 0xFF)
        exact ⟨r, by simp [ROR, _parse2, pyShl, pyShr, hn1, hn2, hc1, hc2, hc3, hr], h0r, hbr⟩

/-- Claim C9 witness: the range invariant instantiated at operands `5` and
`3` with both tags `l`; the unary conjuncts also hold at the unrecognized
second character `z`, per `claim_C9_amended` applied a second time below. -/
theorem claim_C9_witness :
    ('l' ∈ recognizedTags) ∧
    ((∃ r, INC 5 ['l', 'l'] = some r ∧ 0 ≤ r ∧ r < tagBound 'l') ∧
     (∃ r, DEC 5 ['l', 'l'] = some r ∧ 0 ≤ r ∧ r < tagBound 'l') ∧
     (∃ r, NEG 5 ['l', 'l'] = some r ∧ 0 ≤ r ∧ r < tagBound 'l') ∧
     (∃ r, NOT 5 ['l', 'l'] = some r ∧ 0 ≤ r ∧ r < tagBound 'l') ∧
     ('l' ∈ recognizedTags →
       (∃ r, XOR 5 3 ['l', 'l'] = some r ∧ 0 ≤ r ∧ r < tagBound 'l') ∧
       (∃ r, OR 5 3 ['l', 'l'] = some r ∧ 0 ≤ r ∧ r < tagBound 'l') ∧
       (∃ r, AND 5 3 ['l', 'l'] = some r ∧ 0 ≤ r ∧ r < tagBound 'l') ∧
       (∃ r, SHR 5 3 ['l', 'l'] = some r ∧ 0 ≤ r ∧ r < tagBound 'l') ∧
       (∃ r, SHL 5 3 ['l', 'l'] = some r ∧ 0 ≤ r ∧ r < tagBound 'l') ∧
       (∃ r, ADD 5 3 ['l', 'l'] = some r ∧ 0 ≤ r ∧ r < tagBound 'l') ∧
       (∃ r, SUB 5 3 ['l', 'l'] = some r ∧ 0 ≤ r ∧ r < tagBound 'l') ∧
       (∀ n2, _get_size 3 'l' = some n2 → n2 ≤ 8 →
         (∃ r, ROL 5 3 ['l', 'l'] = some r ∧ 0 ≤ r ∧ r < tagBound 'l') ∧
         (∃ r, ROR 5 3 ['l', 'l'] = some r ∧ 0 ≤ r ∧ r < tagBound 'l')))) ∧
    (∃ r, INC 1 ['d', 'z'] = some r ∧ 0 ≤ r ∧ r < tagBound 'd') :=
  ⟨by decide, claim_C9_amended 5 3 'l' 'l' (by decide),
    (claim_C9_amended 1 1 'd' 'z' (by decide)).1⟩

end AsmDec
